import Mathlib

/-
Verification development for the leads234567 contact-discovery server.

Shallow embedding of the batch job runner and its persistence layer:
  - src/server/routes.ts   (findEmailWithGetProspect, POST /api/search/batch)
  - src/server/storage.ts  (MemStorage: the exported storage implementation)
  - src/shared/schema.ts   (entity shapes)

JavaScript optional values are modelled explicitly: a text-valued field of a
record can be undefined (key absent), null, or a string; a numeric field can
be undefined, null, or a number.  The JavaScript truthiness-based defaulting
idiom `a || b` is modelled by jsOrStr / jsOrNum (empty string and 0 count as
falsy).  Nondeterministic inputs of the code (randomUUID, Date.now, the fetch
of the external service) are passed in as explicit parameters.
-/

namespace Leads

/-- A JavaScript string-or-missing value: undefined, null, or a string. -/
inductive JStr where
  | undef : JStr
  | null : JStr
  | str (s : String) : JStr
  deriving DecidableEq, Repr

/-- A JavaScript number-or-missing value: undefined, null, or a number. -/
inductive JNum where
  | undef : JNum
  | null : JNum
  | num (n : Int) : JNum
  deriving DecidableEq, Repr

/-- JavaScript truthiness of a string-valued field: only a non-empty string is truthy. -/
def jsTruthyStr : JStr → Bool
  | .str s => !(s == "")
  | _ => false

/-- The JavaScript expression a || b on string-valued fields. -/
def jsOrStr (a b : JStr) : JStr := if jsTruthyStr a then a else b

/-- The JavaScript expression a || null on string-valued fields. -/
def jsOrNullStr (a : JStr) : JStr := jsOrStr a .null

/-- JavaScript truthiness of a number-valued field: only a non-zero number is truthy. -/
def jsTruthyNum : JNum → Bool
  | .num n => !(n == 0)
  | _ => false

/-- The JavaScript expression a || b on number-valued fields. -/
def jsOrNum (a b : JNum) : JNum := if jsTruthyNum a then a else b

/-- The JavaScript expression a || null on number-valued fields. -/
def jsOrNullNum (a : JNum) : JNum := jsOrNum a .null

/-! ## Lookup Client: findEmailWithGetProspect (src/server/routes.ts lines 22-73) -/

/-- The JSON body returned by the external service on a 2xx response
(the fields the code reads from `data`); absent keys are undef. -/
structure PayloadData where
  email : JStr := .undef
  confidence : JNum := .undef
  score : JNum := .undef
  title : JStr := .undef
  position : JStr := .undef
  domain : JStr := .undef
  full_name : JStr := .undef
  fullName : JStr := .undef
  industry : JStr := .undef
  website : JStr := .undef
  company_size : JStr := .undef
  companySize : JStr := .undef
  country : JStr := .undef
  city : JStr := .undef
  email_status : JStr := .undef
  emailStatus : JStr := .undef
  deriving DecidableEq, Repr

/-- The GetProspectResponse interface of routes.ts: all fields optional,
absent keys are undef. -/
structure GetProspectResponse where
  email : JStr := .undef
  confidence : JNum := .undef
  title : JStr := .undef
  domain : JStr := .undef
  fullName : JStr := .undef
  industry : JStr := .undef
  website : JStr := .undef
  companySize : JStr := .undef
  country : JStr := .undef
  city : JStr := .undef
  emailStatus : JStr := .undef
  error : JStr := .undef
  deriving DecidableEq, Repr

/-- The object literal the code returns in every error path: only the error
key is set, every other field is left undefined. -/
def mkError (m : String) : GetProspectResponse := { error := .str m }

/-- What the single fetch of findEmailWithGetProspect did: the promise
rejected with an Error carrying a message, rejected with a non-Error value,
or resolved with a status, statusText and parsed JSON body. -/
inductive FetchOutcome where
  | fail (msg : String) : FetchOutcome
  | failNonError : FetchOutcome
  | resp (status : Nat) (statusText : String) (data : PayloadData) : FetchOutcome
  deriving DecidableEq, Repr

/-- response.ok of the Fetch API: status in the range 200-299. -/
def respOk (status : Nat) : Bool := 200 ≤ status && status ≤ 299

/-- findEmailWithGetProspect (src/server/routes.ts lines 22-73).  The errors
thrown on non-ok statuses are caught by the function's own catch block, which
turns any Error into mkError of its message, so the embedding returns the
caught value directly. -/
def findEmailWithGetProspect (firstName lastName company apiKey : String)
    (f : FetchOutcome) : GetProspectResponse :=
  match f with
  | .fail msg => mkError msg
  | .failNonError => mkError "Unknown error occurred"
  | .resp status statusText data =>
    if !respOk status then
      if status == 401 then mkError "Invalid API key"
      else if status == 429 then mkError "Rate limit exceeded. Please try again later."
      else if status == 402 then mkError "Insufficient credits. Please upgrade your plan."
      else mkError ("API error: " ++ toString status ++ " " ++ statusText)
    else if jsTruthyStr data.email then
      { email := data.email
        confidence := jsOrNum data.confidence (jsOrNum data.score (.num 0))
        title := jsOrStr data.title data.position
        domain := jsOrStr data.domain (.str company)
        fullName := jsOrStr data.full_name (jsOrStr data.fullName
          (.str (firstName ++ " " ++ lastName)))
        industry := data.industry
        website := data.website
        companySize := jsOrStr data.company_size data.companySize
        country := data.country
        city := data.city
        emailStatus := jsOrStr data.email_status (jsOrStr data.emailStatus (.str "UNKNOWN"))
        error := .undef }
    else mkError "No email found"

/-! ## Record Store entities (src/shared/schema.ts) and MemStorage
(src/server/storage.ts, the exported storage implementation) -/

/-- InsertEmailSearch: the insert shape of the email_searches table
(id and createdAt omitted).  Required columns are plain strings, optional
columns are JavaScript optionals (a caller may omit them entirely). -/
structure InsertEmailSearch where
  firstName : String
  lastName : String
  fullName : JStr := .undef
  company : String
  email : JStr := .undef
  confidence : JNum := .undef
  title : JStr := .undef
  domain : JStr := .undef
  industry : JStr := .undef
  website : JStr := .undef
  companySize : JStr := .undef
  country : JStr := .undef
  city : JStr := .undef
  emailStatus : JStr := .undef
  status : String
  errorMessage : JStr := .undef
  searchType : String
  batchId : JStr := .undef
  deriving DecidableEq, Repr

/-- EmailSearch: a stored row of email_searches (the value kept in the
MemStorage map). -/
structure EmailSearch where
  id : String
  firstName : String
  lastName : String
  fullName : JStr
  company : String
  email : JStr
  confidence : JNum
  title : JStr
  domain : JStr
  industry : JStr
  website : JStr
  companySize : JStr
  country : JStr
  city : JStr
  emailStatus : JStr
  status : String
  errorMessage : JStr
  searchType : String
  batchId : JStr
  createdAt : Nat
  deriving DecidableEq, Repr

/-- MemStorage.createEmailSearch (src/server/storage.ts lines 33-48).
The record is the spread of the insert object, plus the fresh id and
timestamp, with title, email, confidence, domain, errorMessage and batchId
re-written through the a-or-null idiom; fields not listed in the object
literal (fullName, industry, website, companySize, country, city,
emailStatus) come from the spread unchanged.  The map's insertion order is
modelled as appending to the list.  randomUUID and Date.now are the id and
now parameters. -/
def createEmailSearch (searches : List EmailSearch) (ins : InsertEmailSearch)
    (id : String) (now : Nat) : List EmailSearch × EmailSearch :=
  let search : EmailSearch :=
    { id := id
      firstName := ins.firstName
      lastName := ins.lastName
      fullName := ins.fullName
      company := ins.company
      email := jsOrNullStr ins.email
      confidence := jsOrNullNum ins.confidence
      title := jsOrNullStr ins.title
      domain := jsOrNullStr ins.domain
      industry := ins.industry
      website := ins.website
      companySize := ins.companySize
      country := ins.country
      city := ins.city
      emailStatus := ins.emailStatus
      status := ins.status
      errorMessage := jsOrNullStr ins.errorMessage
      searchType := ins.searchType
      batchId := jsOrNullStr ins.batchId
      createdAt := now }
  (searches ++ [search], search)

/-- InsertApiConfig: insert shape of api_config; the drizzle-zod insert
schema makes isActive an optional string (the column has a default), so an
omitted key is none. -/
structure InsertApiConfig where
  apiKey : String
  isActive : Option String := none
  deriving DecidableEq, Repr

/-- ApiConfig: a stored api_config row. -/
structure ApiConfig where
  id : String
  apiKey : String
  isActive : String
  createdAt : Nat
  deriving DecidableEq, Repr

/-- The JavaScript expression insertConfig.isActive || "true": an omitted
key and the empty string both fall back to "true"; any other supplied
string is kept as is. -/
def isActiveOrTrue : Option String → String
  | none => "true"
  | some s => if s == "" then "true" else s

/-- MemStorage.saveApiConfig (src/server/storage.ts lines 67-82): mutate
every stored config's isActive to "false", then insert the new config with
isActive = insertConfig.isActive || "true". -/
def saveApiConfig (cfgs : List ApiConfig) (ins : InsertApiConfig)
    (id : String) (now : Nat) : List ApiConfig × ApiConfig :=
  let deactivated := cfgs.map (fun c => { c with isActive := "false" })
  let config : ApiConfig :=
    { id := id
      apiKey := ins.apiKey
      isActive := isActiveOrTrue ins.isActive
      createdAt := now }
  (deactivated ++ [config], config)

/-- MemStorage.getActiveApiConfig (src/server/storage.ts lines 84-86):
the first stored config, in insertion order, whose isActive is "true". -/
def getActiveApiConfig (cfgs : List ApiConfig) : Option ApiConfig :=
  cfgs.find? (fun c => c.isActive == "true")

/-- Number of stored configs whose isActive is "true". -/
def countActive (cfgs : List ApiConfig) : Nat :=
  (cfgs.filter (fun c => c.isActive == "true")).length

/-- InsertBatchJob: insert shape of batch_jobs (id, createdAt, completedAt
omitted); processedRecords and successfulRecords are optional (defaulted
columns). -/
structure InsertBatchJob where
  fileName : String
  totalRecords : Nat
  processedRecords : Option Nat := none
  successfulRecords : Option Nat := none
  status : String
  deriving DecidableEq, Repr

/-- BatchJob: a stored batch_jobs row. -/
structure BatchJob where
  id : String
  fileName : String
  totalRecords : Nat
  processedRecords : Nat
  successfulRecords : Nat
  status : String
  createdAt : Nat
  completedAt : Option Nat
  deriving DecidableEq, Repr

/-- The JavaScript expression n || 0 on an optional count (an omitted key
becomes 0; 0 itself is falsy but the fallback is 0 as well). -/
def countOrZero : Option Nat → Nat
  | none => 0
  | some n => n

/-- MemStorage.createBatchJob (src/server/storage.ts lines 88-100). -/
def createBatchJob (ins : InsertBatchJob) (id : String) (now : Nat) : BatchJob :=
  { id := id
    fileName := ins.fileName
    totalRecords := ins.totalRecords
    processedRecords := countOrZero ins.processedRecords
    successfulRecords := countOrZero ins.successfulRecords
    status := ins.status
    createdAt := now
    completedAt := none }

/-- A Partial of BatchJob: every field optional, as in updateBatchJob's
updates argument. -/
structure BatchJobUpdate where
  id : Option String := none
  fileName : Option String := none
  totalRecords : Option Nat := none
  processedRecords : Option Nat := none
  successfulRecords : Option Nat := none
  status : Option String := none
  createdAt : Option Nat := none
  completedAt : Option (Option Nat) := none
  deriving DecidableEq, Repr

/-- The body of MemStorage.updateBatchJob once the job is found
(src/server/storage.ts lines 110-113): spread the updates over the job,
then overwrite completedAt with the current time when the updates carry
status completed or failed. -/
def applyUpd (j : BatchJob) (u : BatchJobUpdate) (now : Nat) : BatchJob :=
  let merged : BatchJob :=
    { id := u.id.getD j.id
      fileName := u.fileName.getD j.fileName
      totalRecords := u.totalRecords.getD j.totalRecords
      processedRecords := u.processedRecords.getD j.processedRecords
      successfulRecords := u.successfulRecords.getD j.successfulRecords
      status := u.status.getD j.status
      createdAt := u.createdAt.getD j.createdAt
      completedAt := u.completedAt.getD j.completedAt }
  if u.status = some "completed" ∨ u.status = some "failed" then
    { merged with completedAt := some now }
  else merged

/-- The batch-jobs map of MemStorage: key-value pairs in insertion order
(JavaScript Map semantics). -/
abbrev BatchJobs := List (String × BatchJob)

/-- this.batchJobs.get(id). -/
def getBatchJob (jobs : BatchJobs) (id : String) : Option BatchJob :=
  (jobs.find? (fun kv => kv.1 == id)).map (fun kv => kv.2)

/-- this.batchJobs.set(id, j): overwrite the entry at an existing key in
place (keys are fresh UUIDs, so the key is unique when present). -/
def setBatchJob (jobs : BatchJobs) (id : String) (j : BatchJob) : BatchJobs :=
  jobs.map (fun kv => if kv.1 == id then (id, j) else kv)

/-- MemStorage.updateBatchJob (src/server/storage.ts lines 106-117):
undefined when the id is absent (state untouched); otherwise the merged,
possibly completion-stamped record is stored back and returned. -/
def updateBatchJob (jobs : BatchJobs) (id : String) (u : BatchJobUpdate)
    (now : Nat) : Option BatchJob × BatchJobs :=
  match getBatchJob jobs id with
  | none => (none, jobs)
  | some j =>
    let j2 := applyUpd j u now
    (some j2, setBatchJob jobs id j2)

/-! ## Batch Job Runner (src/server/routes.ts, POST /api/search/batch,
lines 157-271) -/

/-- A raw contact as it arrives in the request body: each field may be
absent, null, or a string. -/
structure RawContact where
  firstName : JStr := .undef
  lastName : JStr := .undef
  company : JStr := .undef
  deriving DecidableEq, Repr

/-- Whether a raw field passes z.string().min(1): it must be a string of
length at least 1. -/
def zNonEmptyString : JStr → Bool
  | .str s => decide (1 ≤ s.length)
  | _ => false

/-- Whether singleSearchSchema.parse(contact) succeeds (src/shared/schema.ts
lines 63-67): firstName, lastName and company are all non-empty strings. -/
def validContact (c : RawContact) : Bool :=
  zNonEmptyString c.firstName && zNonEmptyString c.lastName && zNonEmptyString c.company

/-- One iteration of the batch loop as seen by its inputs: the raw contact
and, when the contact is valid, the lookup outcome the Lookup Client
returned for it (findEmailWithGetProspect never throws, so the outcome is
always a value; for an invalid contact the Lookup Client is never invoked
and the outcome component is irrelevant). -/
abbrev BatchStep := RawContact × GetProspectResponse

/-- One iteration's effect on the local counters of the loop
(src/server/routes.ts lines 184-251): a valid contact increments processed
and, when the outcome carries no error, successful; the catch branch taken
for an invalid contact increments processed only. -/
def stepCounters (acc : Nat × Nat) (x : BatchStep) : Nat × Nat :=
  if validContact x.1 then
    (acc.1 + 1, if jsTruthyStr x.2.error then acc.2 else acc.2 + 1)
  else
    (acc.1 + 1, acc.2)

/-- The local (processed, successful) counters after running the loop over
the given steps, starting from the given counters. -/
def countersFrom (acc : Nat × Nat) (l : List BatchStep) : Nat × Nat :=
  l.foldl stepCounters acc

/-- The local counters after the whole loop (they start at 0). -/
def counters (l : List BatchStep) : Nat × Nat := countersFrom (0, 0) l

/-- The sequence of (processedRecords, successfulRecords) pairs the loop
passes to storage.updateBatchJob mid-run, in order, starting from the given
local counters: a persist happens in the valid-contact branch only
(src/server/routes.ts lines 221-224); the catch branch for an invalid
contact persists nothing. -/
def midUpdatesFrom (acc : Nat × Nat) : List BatchStep → List (Nat × Nat)
  | [] => []
  | x :: xs =>
    if validContact x.1 then
      stepCounters acc x :: midUpdatesFrom (stepCounters acc x) xs
    else midUpdatesFrom (stepCounters acc x) xs

/-- The mid-run progress persists of a whole batch run. -/
def midUpdates (l : List BatchStep) : List (Nat × Nat) := midUpdatesFrom (0, 0) l

/-- The Partial BatchJob passed to updateBatchJob inside the loop
(src/server/routes.ts lines 221-224): counters only, no status. -/
def midUpdate (p s : Nat) : BatchJobUpdate :=
  { processedRecords := some p, successfulRecords := some s }

/-- The Partial BatchJob passed to updateBatchJob after the loop
(src/server/routes.ts lines 254-258): status completed plus the final
counters. -/
def finalUpdate (p s : Nat) : BatchJobUpdate :=
  { status := some "completed", processedRecords := some p, successfulRecords := some s }

/-- The stored job after a mid-run progress persist carrying the pair a.
Each mid-run update supplies both counters and nothing else, so applying a
sequence of them to the job collapses to applying the last one; see
applyUpd_mid_collapse below. -/
def jobAfterMid (j : BatchJob) (a : Nat × Nat) : BatchJob :=
  applyUpd j (midUpdate a.1 a.2) 0

/-- The sequence of stored states of one batch job over its run, at every
externally observable point: at creation, after each mid-run progress
persist, and after the final completion update (tfin is Date.now at the
final update; mid-run updates carry no status, so their now argument is
unused). -/
def jobStates (l : List BatchStep) (j0 : BatchJob) (tfin : Nat) : List BatchJob :=
  j0 :: (midUpdates l).map (jobAfterMid j0)
    ++ [applyUpd j0 (finalUpdate (counters l).1 (counters l).2) tfin]

/-- The InsertEmailSearch the batch route builds from a validated contact
and its lookup outcome (src/server/routes.ts lines 194-213); the single
search route (lines 123-142) builds the identical record with
searchType single and batchId null. -/
def insertFromResult (firstName lastName company : String)
    (result : GetProspectResponse) (searchType : String) (batchId : JStr) :
    InsertEmailSearch :=
  { firstName := firstName
    lastName := lastName
    fullName := jsOrNullStr result.fullName
    company := company
    email := jsOrNullStr result.email
    confidence := jsOrNullNum result.confidence
    title := jsOrNullStr result.title
    domain := jsOrNullStr result.domain
    industry := jsOrNullStr result.industry
    website := jsOrNullStr result.website
    companySize := jsOrNullStr result.companySize
    country := jsOrNullStr result.country
    city := jsOrNullStr result.city
    emailStatus := jsOrNullStr result.emailStatus
    status := if jsTruthyStr result.error then "not_found" else "found"
    errorMessage := jsOrNullStr result.error
    searchType := searchType
    batchId := batchId }

/-- The BatchJob created by the batch route before the loop starts
(src/server/routes.ts lines 171-177): processing state, zero counters,
totalRecords = contacts.length. -/
def initialBatchJob (fn : String) (n : Nat) (jid : String) (t0 : Nat) : BatchJob :=
  createBatchJob
    { fileName := fn
      totalRecords := n
      processedRecords := some 0
      successfulRecords := some 0
      status := "processing" } jid t0

/-! ## The synchronous phase of POST /api/search/batch
(src/server/routes.ts lines 157-177) -/

/-- The whole MemStorage state. -/
structure AppState where
  emailSearches : List EmailSearch := []
  apiConfigs : List ApiConfig := []
  batchJobs : BatchJobs := []
  deriving DecidableEq, Repr

/-- What the batch route responds synchronously. -/
inductive SubmitResult where
  | rejected (msg : String) : SubmitResult
  | accepted (batchId : String) : SubmitResult
  deriving DecidableEq, Repr

/-- Whether the synchronous response was a rejection. -/
def isRejected : SubmitResult → Bool
  | .rejected _ => true
  | .accepted _ => false

/-- The synchronous phase of the batch route (src/server/routes.ts lines
157-177): reject when contacts is not an array or is empty, reject when no
active config exists, otherwise create the job record in processing state
and answer with its id (the asynchronous loop runs later).  contacts none
models a request body whose contacts is not an array. -/
def submitBatch (st : AppState) (fileName : String)
    (contacts : Option (List RawContact)) (id : String) (now : Nat) :
    AppState × SubmitResult :=
  match contacts with
  | none => (st, .rejected "No contacts provided")
  | some cs =>
    if cs.isEmpty then (st, .rejected "No contacts provided")
    else
      match getActiveApiConfig st.apiConfigs with
      | none => (st, .rejected "API key not configured")
      | some _ =>
        let job := initialBatchJob fileName cs.length id now
        ({ st with batchJobs := st.batchJobs ++ [(id, job)] }, .accepted job.id)

/-! ## Concrete sample values, used to evaluate the definitions on closed
inputs -/

/-- A shape-valid contact. -/
def johnContact : RawContact :=
  { firstName := JStr.str "John", lastName := JStr.str "Doe",
    company := JStr.str "Acme" }

/-- A shape-invalid contact: every field is absent. -/
def invalidContact : RawContact := {}

/-- A lookup outcome with no field set. -/
def emptyOutcome : GetProspectResponse := {}

/-- A 2xx payload carrying only an email address. -/
def emailOnlyPayload : PayloadData := { email := JStr.str "jane@acme.io" }

/-- A config insert that explicitly supplies isActive false. -/
def falseActiveInsert : InsertApiConfig := { apiKey := "k", isActive := some "false" }

/-- A stored batch job in processing state. -/
def jobA : BatchJob :=
  { id := "a", fileName := "f.csv", totalRecords := 2, processedRecords := 1,
    successfulRecords := 1, status := "processing", createdAt := 0, completedAt := none }

/-- An email-search insert that supplies only the required fields. -/
def minimalInsert : InsertEmailSearch :=
  { firstName := "J", lastName := "D", company := "A", status := "found",
    searchType := "single" }

/-! ## Supporting lemmas -/

/-- The a-or-null idiom never yields undefined on string-valued fields. -/
theorem jsOrNullStr_ne_undef (a : JStr) : jsOrNullStr a ≠ JStr.undef := by
  cases a <;> simp [jsOrNullStr, jsOrStr, jsTruthyStr] <;> split <;> simp_all

/-- The a-or-null idiom never yields undefined on number-valued fields. -/
theorem jsOrNullNum_ne_undef (a : JNum) : jsOrNullNum a ≠ JNum.undef := by
  cases a <;> simp [jsOrNullNum, jsOrNum, jsTruthyNum] <;> split <;> simp_all

/-- A later mid-run persist overwrites both counters, so applying it to the
previous mid-run state equals applying it to the created job directly. -/
theorem applyUpd_mid_collapse (j : BatchJob) (a b : Nat × Nat) :
    jobAfterMid (jobAfterMid j a) b = jobAfterMid j b := by
  simp [jobAfterMid, applyUpd, midUpdate]

/-- The final completion update overwrites status and both counters, so
applying it after any mid-run state equals applying it to the created job
directly. -/
theorem applyUpd_final_collapse (j : BatchJob) (a : Nat × Nat) (p s tfin : Nat) :
    applyUpd (jobAfterMid j a) (finalUpdate p s) tfin
      = applyUpd j (finalUpdate p s) tfin := by
  simp [jobAfterMid, applyUpd, midUpdate, finalUpdate]

/-- Every loop iteration increments the processed counter by exactly one. -/
theorem stepCounters_fst (acc : Nat × Nat) (x : BatchStep) :
    (stepCounters acc x).1 = acc.1 + 1 := by
  simp only [stepCounters]
  split <;> rfl

/-- Every loop iteration leaves both counters at least as large as before. -/
theorem stepCounters_le (acc : Nat × Nat) (x : BatchStep) :
    acc.1 ≤ (stepCounters acc x).1 ∧ acc.2 ≤ (stepCounters acc x).2 := by
  simp only [stepCounters]
  split
  · refine ⟨Nat.le_succ _, ?_⟩
    split
    · exact Nat.le_refl _
    · exact Nat.le_succ _
  · exact ⟨Nat.le_succ _, Nat.le_refl _⟩

/-- After the loop, the processed counter equals its start plus the number
of contacts: it is incremented exactly once per contact in both branches. -/
theorem countersFrom_fst (l : List BatchStep) (acc : Nat × Nat) :
    (countersFrom acc l).1 = acc.1 + l.length := by
  induction l generalizing acc with
  | nil => simp [countersFrom]
  | cons x xs ih =>
    show (countersFrom (stepCounters acc x) xs).1 = acc.1 + (x :: xs).length
    rw [ih, stepCounters_fst]
    simp only [List.length_cons]
    omega

/-- Running the loop never decreases either counter. -/
theorem countersFrom_le (l : List BatchStep) (acc : Nat × Nat) :
    acc.1 ≤ (countersFrom acc l).1 ∧ acc.2 ≤ (countersFrom acc l).2 := by
  induction l generalizing acc with
  | nil => exact ⟨Nat.le_refl _, Nat.le_refl _⟩
  | cons x xs ih =>
    have h1 := stepCounters_le acc x
    have h2 := ih (stepCounters acc x)
    exact ⟨Nat.le_trans h1.1 h2.1, Nat.le_trans h1.2 h2.2⟩

/-- Every mid-run persisted processed count is bounded by the number of
contacts handled so far. -/
theorem midUpdatesFrom_mem_le (l : List BatchStep) (acc : Nat × Nat) :
    ∀ y ∈ midUpdatesFrom acc l, y.1 ≤ acc.1 + l.length := by
  induction l generalizing acc with
  | nil => intro y hy; simp [midUpdatesFrom] at hy
  | cons x xs ih =>
    intro y hy
    simp only [midUpdatesFrom] at hy
    have hstep : (stepCounters acc x).1 = acc.1 + 1 := stepCounters_fst acc x
    by_cases hv : validContact x.1
    · rw [if_pos hv] at hy
      rcases List.mem_cons.mp hy with h | h
      · subst h
        simp only [hstep, List.length_cons]
        omega
      · have := ih (stepCounters acc x) y h
        simp only [hstep, List.length_cons] at *
        omega
    · rw [if_neg hv] at hy
      have := ih (stepCounters acc x) y hy
      simp only [hstep, List.length_cons] at *
      omega

/-- How one more contact extends the list of mid-run persists: a valid
contact appends exactly one persist, carrying the counters right after it;
an invalid contact appends nothing. -/
theorem midUpdatesFrom_append (xs : List BatchStep) (x : BatchStep) (acc : Nat × Nat) :
    midUpdatesFrom acc (xs ++ [x])
      = midUpdatesFrom acc xs
        ++ (if validContact x.1 then [countersFrom acc (xs ++ [x])] else []) := by
  induction xs generalizing acc with
  | nil =>
    simp [List.nil_append, midUpdatesFrom, countersFrom]
  | cons z zs ih =>
    have hc : countersFrom acc (z :: (zs ++ [x]))
        = countersFrom (stepCounters acc z) (zs ++ [x]) := rfl
    simp only [List.cons_append, midUpdatesFrom, List.append_eq]
    rw [ih (stepCounters acc z), hc]
    by_cases hv : validContact z.1 <;> simp [hv, List.cons_append]

/-- The processed counter after a whole run equals the number of contacts. -/
theorem counters_fst (l : List BatchStep) : (counters l).1 = l.length := by
  have h := countersFrom_fst l (0, 0)
  simpa [counters] using h

/-- Componentwise order on counter pairs. -/
def pairLe (a b : Nat × Nat) : Prop := a.1 ≤ b.1 ∧ a.2 ≤ b.2

/-- The observable counters of a stored batch job. -/
def countersOf (j : BatchJob) : Nat × Nat := (j.processedRecords, j.successfulRecords)

/-- Non-decreasing progress between two stored states of a batch job. -/
def jobMonotone (j j' : BatchJob) : Prop := pairLe (countersOf j) (countersOf j')

/-- The mid-run persisted counter pairs, bracketed by the starting counters
and the final counters, form a componentwise non-decreasing chain. -/
theorem chain_midUpdatesFrom (l : List BatchStep) (acc : Nat × Nat) :
    List.Chain' pairLe (acc :: (midUpdatesFrom acc l ++ [countersFrom acc l])) := by
  induction l generalizing acc with
  | nil =>
    simp [midUpdatesFrom, countersFrom, List.chain'_cons, pairLe]
  | cons x xs ih =>
    simp only [midUpdatesFrom, countersFrom, List.foldl]
    by_cases hv : validContact x.1
    · rw [if_pos hv]
      refine List.chain'_cons.mpr ⟨stepCounters_le acc x, ?_⟩
      exact ih (stepCounters acc x)
    · rw [if_neg hv]
      have h := ih (stepCounters acc x)
      have hcons := List.chain'_cons'.mp h
      refine List.chain'_cons'.mpr ⟨?_, hcons.2⟩
      intro y hy
      have hx : pairLe acc (stepCounters acc x) := stepCounters_le acc x
      have hy2 := hcons.1 y hy
      exact ⟨Nat.le_trans hx.1 hy2.1, Nat.le_trans hx.2 hy2.2⟩

/-- The counters of a mid-run stored state are the persisted pair. -/
theorem countersOf_jobAfterMid (j0 : BatchJob) (a : Nat × Nat) :
    countersOf (jobAfterMid j0 a) = a := by
  simp [countersOf, jobAfterMid, applyUpd, midUpdate]

/-- The counters of the final stored state are the final local counters. -/
theorem countersOf_final (j0 : BatchJob) (p s t : Nat) :
    countersOf (applyUpd j0 (finalUpdate p s) t) = (p, s) := by
  simp [countersOf, applyUpd, finalUpdate]

/-- The counters of the stored states of a run are exactly the starting
pair, the mid-run persisted pairs, and the final pair. -/
theorem jobStates_counters (l : List BatchStep) (j0 : BatchJob) (tfin : Nat) :
    (jobStates l j0 tfin).map countersOf
      = countersOf j0 :: (midUpdates l ++ [counters l]) := by
  simp only [jobStates, List.map_cons, List.map_append, List.map_map, List.map_nil]
  simp [Function.comp_def, countersOf_jobAfterMid, countersOf_final, counters]

/-! ## C4: Lookup Client error handling -/

/-- C4: For every subject and apiKey, the lookup function always returns a
value (the embedding is a total function into GetProspectResponse): a
rejected fetch yields an outcome whose only set field is the thrown error's
message (or the fixed unknown-error text when the thrown value is not an
Error); HTTP 401 yields the Invalid API key outcome, 429 the rate-limit
outcome, 402 the insufficient-credits outcome, and any other non-2xx the
generic outcome carrying the numeric status code; none of these populate
any email field (all other fields default to undefined in the record
literal). -/
theorem findEmail_error_handling (fn ln co key msg stx : String) (st : Nat)
    (d : PayloadData) :
    findEmailWithGetProspect fn ln co key (.fail msg) = { error := JStr.str msg } ∧
    findEmailWithGetProspect fn ln co key .failNonError
      = { error := JStr.str "Unknown error occurred" } ∧
    (respOk st = false → st = 401 →
      findEmailWithGetProspect fn ln co key (.resp st stx d)
        = { error := JStr.str "Invalid API key" }) ∧
    (respOk st = false → st = 429 →
      findEmailWithGetProspect fn ln co key (.resp st stx d)
        = { error := JStr.str "Rate limit exceeded. Please try again later." }) ∧
    (respOk st = false → st = 402 →
      findEmailWithGetProspect fn ln co key (.resp st stx d)
        = { error := JStr.str "Insufficient credits. Please upgrade your plan." }) ∧
    (respOk st = false → st ≠ 401 → st ≠ 429 → st ≠ 402 →
      findEmailWithGetProspect fn ln co key (.resp st stx d)
        = { error := JStr.str ("API error: " ++ toString st ++ " " ++ stx) }) := by
  refine ⟨rfl, rfl, ?_, ?_, ?_, ?_⟩
  · intro hok h
    subst h
    simp [findEmailWithGetProspect, mkError, hok]
  · intro hok h
    subst h
    simp [findEmailWithGetProspect, mkError, hok]
  · intro hok h
    subst h
    simp [findEmailWithGetProspect, mkError, hok]
  · intro hok h1 h2 h3
    simp [findEmailWithGetProspect, mkError, hok, h1, h2, h3]

/-- Witness for C4 at concrete inputs: a 401 response and a generic 500
response. -/
theorem findEmail_error_handling_witness :
    findEmailWithGetProspect "John" "Doe" "Acme" "key" (.resp 401 "Unauthorized" {})
      = { error := JStr.str "Invalid API key" } ∧
    findEmailWithGetProspect "John" "Doe" "Acme" "key" (.resp 500 "Server Error" {})
      = { error := JStr.str "API error: 500 Server Error" } := by
  constructor
  · exact (findEmail_error_handling "John" "Doe" "Acme" "key" "m" "Unauthorized" 401
      {}).2.2.1 (by decide) rfl
  · exact (findEmail_error_handling "John" "Doe" "Acme" "key" "m" "Server Error" 500
      {}).2.2.2.2.2 (by decide) (by decide) (by decide) (by decide)

/-! ## C1: batch completion invariant -/

/-- C1: For every batch of N contacts, whatever each lookup returned, the
last stored state of the job has processedRecords = N and status completed
(the counter is incremented exactly once per contact in both the success
and the catch branch), and no stored state of the run ever carries status
failed or cancelled: the run starts the job in processing, mid-run persists
carry no status, and the single terminal write sets completed
unconditionally. -/
theorem batchRun_completion (l : List BatchStep) (fn jid : String) (t0 tfin : Nat) :
    (∃ jfin,
      (jobStates l (initialBatchJob fn l.length jid t0) tfin).getLast? = some jfin ∧
        jfin.processedRecords = l.length ∧ jfin.status = "completed") ∧
    ∀ j ∈ jobStates l (initialBatchJob fn l.length jid t0) tfin,
      j.status ≠ "failed" ∧ j.status ≠ "cancelled" := by
  constructor
  · refine ⟨applyUpd (initialBatchJob fn l.length jid t0)
      (finalUpdate (counters l).1 (counters l).2) tfin, ?_, ?_, ?_⟩
    · simp only [jobStates]
      rw [List.getLast?_concat]
    · simp [applyUpd, finalUpdate, counters_fst]
    · simp [applyUpd, finalUpdate]
  · intro j hj
    simp only [jobStates, List.mem_cons, List.mem_append, List.mem_map,
      List.mem_singleton, List.not_mem_nil, or_false] at hj
    rcases hj with (h | ⟨a, _, h⟩) | h
    · subst h
      simp [initialBatchJob, createBatchJob]
    · subst h
      simp [jobAfterMid, applyUpd, midUpdate, initialBatchJob, createBatchJob]
    · subst h
      simp [applyUpd, finalUpdate]

/-! ## C2: progress persistence after every contact -/

/-- C2 is false as stated: after the single (invalid) contact of this batch
has been handled, the loop has processed it (the local counters are (1, 0))
but the list of mid-run persists to the stored job is empty — the catch
branch for an invalid contact does not call storage.updateBatchJob, so the
updated processedRecords is not externally observable until the next valid
contact or the final completion write. -/
theorem batchRun_persist_counterexample :
    midUpdates [(invalidContact, emptyOutcome)] = [] ∧
    counters [(invalidContact, emptyOutcome)] = (1, 0) := by
  exact ⟨rfl, rfl⟩

/-- C2 (amended): the runner immediately persists the exact updated
counters onto the stored job after every valid contact (whether its lookup
succeeded or returned not-found), but after an invalid contact it persists
nothing: the counter update becomes observable only with the next valid
contact's persist or the final completion write. -/
theorem batchRun_persists_after_valid (xs : List BatchStep) (c : RawContact)
    (o : GetProspectResponse) :
    (validContact c = true →
      midUpdates (xs ++ [(c, o)]) = midUpdates xs ++ [counters (xs ++ [(c, o)])]) ∧
    (validContact c = false → midUpdates (xs ++ [(c, o)]) = midUpdates xs) := by
  constructor
  · intro hv
    have h := midUpdatesFrom_append xs (c, o) (0, 0)
    simpa [midUpdates, counters, hv] using h
  · intro hv
    have h := midUpdatesFrom_append xs (c, o) (0, 0)
    simpa [midUpdates, counters, hv] using h

/-- Witness for the amended C2 at a concrete valid contact. -/
theorem batchRun_persists_after_valid_witness :
    midUpdates ([] ++ [(johnContact, emptyOutcome)])
      = midUpdates [] ++ [counters ([] ++ [(johnContact, emptyOutcome)])] :=
  (batchRun_persists_after_valid [] johnContact emptyOutcome).1 (by decide)

/-! ## C3: progress monotonicity -/

/-- C3: over a whole batch run, the sequence of stored job states — from
creation through every mid-run persist to the final completion write — has
non-decreasing processedRecords and successfulRecords, and every stored
state keeps processedRecords at most totalRecords (= the number of
submitted contacts). -/
theorem batchRun_monotone (l : List BatchStep) (fn jid : String) (t0 tfin : Nat) :
    List.Chain' jobMonotone (jobStates l (initialBatchJob fn l.length jid t0) tfin) ∧
    ∀ j ∈ jobStates l (initialBatchJob fn l.length jid t0) tfin,
      j.processedRecords ≤ j.totalRecords := by
  constructor
  · have h := chain_midUpdatesFrom l (0, 0)
    have hmap := jobStates_counters l (initialBatchJob fn l.length jid t0) tfin
    have h0 : countersOf (initialBatchJob fn l.length jid t0) = (0, 0) := rfl
    rw [h0] at hmap
    have h2 : List.Chain' pairLe
        ((jobStates l (initialBatchJob fn l.length jid t0) tfin).map countersOf) := by
      rw [hmap]
      exact h
    exact (List.chain'_map countersOf).mp h2
  · intro j hj
    simp only [jobStates, List.mem_cons, List.mem_append, List.mem_map,
      List.mem_singleton, List.not_mem_nil, or_false] at hj
    rcases hj with (h | ⟨a, ha, h⟩) | h
    · subst h
      simp [initialBatchJob, createBatchJob, countOrZero]
    · subst h
      have hb := midUpdatesFrom_mem_le l (0, 0) a ha
      simp only [Prod.fst] at hb
      simp [jobAfterMid, applyUpd, midUpdate, initialBatchJob, createBatchJob,
        countOrZero]
      omega
    · subst h
      simp [applyUpd, finalUpdate, initialBatchJob, createBatchJob, countOrZero,
        counters_fst]

/-! ## C5: Lookup Client success-path defaults -/

/-- C5 is false as stated: on a 2xx response whose payload has an email but
no industry (and no website, company size, country or city), the outcome
leaves those enrichment fields undefined rather than defaulting them to an
unknown sentinel; only the email-validity tag gets the UNKNOWN default. -/
theorem findEmail_sentinel_counterexample :
    (findEmailWithGetProspect "Jane" "Roe" "Acme" "key"
      (.resp 200 "OK" emailOnlyPayload)).email = JStr.str "jane@acme.io" ∧
    (findEmailWithGetProspect "Jane" "Roe" "Acme" "key"
      (.resp 200 "OK" emailOnlyPayload)).industry = JStr.undef ∧
    (findEmailWithGetProspect "Jane" "Roe" "Acme" "key"
      (.resp 200 "OK" emailOnlyPayload)).website = JStr.undef ∧
    (findEmailWithGetProspect "Jane" "Roe" "Acme" "key"
      (.resp 200 "OK" emailOnlyPayload)).country = JStr.undef ∧
    JStr.undef ≠ JStr.str "UNKNOWN" ∧
    (findEmailWithGetProspect "Jane" "Roe" "Acme" "key"
      (.resp 200 "OK" emailOnlyPayload)).emailStatus = JStr.str "UNKNOWN" := by
  refine ⟨rfl, rfl, rfl, rfl, fun h => ?_, rfl⟩
  cases h

/-- C5 (amended): on a 2xx response with an email, the outcome's email is
the payload's email; confidence defaults through score to 0, domain to the
queried company, full name to the queried subject's concatenated name, and
the email-validity tag to the UNKNOWN sentinel; industry, website, company
size, country and city are copied from the payload unchanged and stay
absent when the service omitted them.  On a 2xx response without an email
the outcome's only set field is the error message No email found. -/
theorem findEmail_success_fields (fn ln co key stx : String) (st : Nat)
    (d : PayloadData) (hok : respOk st = true) :
    (jsTruthyStr d.email = true →
      (findEmailWithGetProspect fn ln co key (.resp st stx d)).email = d.email ∧
      (findEmailWithGetProspect fn ln co key (.resp st stx d)).confidence
        = jsOrNum d.confidence (jsOrNum d.score (.num 0)) ∧
      (findEmailWithGetProspect fn ln co key (.resp st stx d)).title
        = jsOrStr d.title d.position ∧
      (findEmailWithGetProspect fn ln co key (.resp st stx d)).domain
        = jsOrStr d.domain (.str co) ∧
      (findEmailWithGetProspect fn ln co key (.resp st stx d)).fullName
        = jsOrStr d.full_name (jsOrStr d.fullName (.str (fn ++ " " ++ ln))) ∧
      (findEmailWithGetProspect fn ln co key (.resp st stx d)).industry = d.industry ∧
      (findEmailWithGetProspect fn ln co key (.resp st stx d)).website = d.website ∧
      (findEmailWithGetProspect fn ln co key (.resp st stx d)).companySize
        = jsOrStr d.company_size d.companySize ∧
      (findEmailWithGetProspect fn ln co key (.resp st stx d)).country = d.country ∧
      (findEmailWithGetProspect fn ln co key (.resp st stx d)).city = d.city ∧
      (findEmailWithGetProspect fn ln co key (.resp st stx d)).emailStatus
        = jsOrStr d.email_status (jsOrStr d.emailStatus (.str "UNKNOWN")) ∧
      (findEmailWithGetProspect fn ln co key (.resp st stx d)).error = JStr.undef) ∧
    (jsTruthyStr d.email = false →
      findEmailWithGetProspect fn ln co key (.resp st stx d)
        = { error := JStr.str "No email found" }) := by
  constructor
  · intro he
    simp [findEmailWithGetProspect, hok, he]
  · intro he
    simp [findEmailWithGetProspect, mkError, hok, he]

/-- Witness for the amended C5 at a concrete 2xx response. -/
theorem findEmail_success_fields_witness :
    (findEmailWithGetProspect "Jane" "Roe" "Acme" "key"
      (.resp 200 "OK" emailOnlyPayload)).email = emailOnlyPayload.email :=
  ((findEmail_success_fields "Jane" "Roe" "Acme" "key" "OK" 200 emailOnlyPayload
    (by decide)).1 (by decide)).1

/-! ## C6: single active API configuration -/

/-- C6 is false as stated: one saveApiConfig call whose input supplies
isActive false leaves one stored config but zero active ones, and
getActiveApiConfig then returns nothing (the a-or-true idiom keeps any
truthy supplied string, deactivation of the others notwithstanding). -/
theorem saveApiConfig_single_active_counterexample :
    countActive (saveApiConfig [] falseActiveInsert "id0" 0).1 = 0 ∧
    (saveApiConfig [] falseActiveInsert "id0" 0).1.length = 1 ∧
    getActiveApiConfig (saveApiConfig [] falseActiveInsert "id0" 0).1 = none := by
  exact ⟨rfl, rfl, rfl⟩

/-- Deactivating every stored config leaves none counted active. -/
theorem countActive_deactivate (cfgs : List ApiConfig) :
    countActive (cfgs.map (fun c => { c with isActive := "false" })) = 0 := by
  induction cfgs with
  | nil => rfl
  | cons c cs ih =>
    simp only [List.map_cons, countActive, List.filter_cons] at *
    simpa using ih

/-- Deactivating every stored config makes the active-config search miss. -/
theorem getActive_deactivate (cfgs : List ApiConfig) :
    (cfgs.map (fun c => { c with isActive := "false" })).find?
      (fun c => c.isActive == "true") = none := by
  induction cfgs with
  | nil => rfl
  | cons c cs ih =>
    rw [List.map_cons, List.find?_cons_of_neg]
    · exact ih
    · simp

/-- find? falls through a firstChunk in which nothing matches. -/
theorem find?_append_none {α : Type} (p : α → Bool) (l1 l2 : List α)
    (h : l1.find? p = none) : (l1 ++ l2).find? p = l2.find? p := by
  induction l1 with
  | nil => rfl
  | cons a l ih =>
    rcases hpa : p a with hf | ht
    · rw [List.cons_append, List.find?_cons_of_neg _ (by simp [hpa])]
      rw [List.find?_cons_of_neg _ (by simp [hpa])] at h
      exact ih h
    · rw [List.find?_cons_of_pos _ hpa] at h
      cases h

/-- C6 (amended): a saveApiConfig call deactivates every existing config;
the inserted config is active exactly when the supplied isActive is
omitted, empty, or the string true (the a-or-true idiom keeps any other
truthy value).  So after the call the number of active configs is one in
that case and zero otherwise, and in the active case getActiveApiConfig
returns exactly the just-saved config. -/
theorem saveApiConfig_single_active (cfgs : List ApiConfig) (ins : InsertApiConfig)
    (id : String) (now : Nat) :
    countActive (saveApiConfig cfgs ins id now).1
      = (if isActiveOrTrue ins.isActive = "true" then 1 else 0) ∧
    (isActiveOrTrue ins.isActive = "true" →
      getActiveApiConfig (saveApiConfig cfgs ins id now).1
        = some (saveApiConfig cfgs ins id now).2) := by
  constructor
  · have h := countActive_deactivate cfgs
    simp only [countActive] at h ⊢
    simp only [saveApiConfig, List.filter_append, List.length_append, h]
    by_cases hT : isActiveOrTrue ins.isActive = "true" <;>
      simp [List.filter_cons, hT]
  · intro hT
    have h := getActive_deactivate cfgs
    simp only [saveApiConfig, getActiveApiConfig]
    rw [find?_append_none _ _ _ h, List.find?_cons_of_pos _ (by simp [hT])]

/-- Witness for the amended C6: saving a config with no isActive supplied
on top of an existing (deactivated) one leaves it as the unique active
config. -/
theorem saveApiConfig_single_active_witness :
    getActiveApiConfig (saveApiConfig
        [{ id := "old", apiKey := "A", isActive := "true", createdAt := 0 }]
        { apiKey := "B" } "new" 1).1
      = some (saveApiConfig
        [{ id := "old", apiKey := "A", isActive := "true", createdAt := 0 }]
        { apiKey := "B" } "new" 1).2 :=
  (saveApiConfig_single_active
    [{ id := "old", apiKey := "A", isActive := "true", createdAt := 0 }]
    { apiKey := "B" } "new" 1).2 rfl

/-! ## C7: updateBatchJob merge and completion stamping -/

/-- C7: updateBatchJob on a non-existent id answers an explicit absent
value and leaves the store untouched; on an existing id it merges the
supplied fields over the stored record, and whenever the update makes the
merged status completed or failed it stamps completedAt with the current
time even though the caller did not supply completedAt; when the update
carries no such status, completedAt is just merged like any other field. -/
theorem updateBatchJob_spec (jobs : BatchJobs) (id : String) (u : BatchJobUpdate)
    (now : Nat) :
    (getBatchJob jobs id = none → updateBatchJob jobs id u now = (none, jobs)) ∧
    (∀ j, getBatchJob jobs id = some j →
      (updateBatchJob jobs id u now).1 = some (applyUpd j u now) ∧
      (applyUpd j u now).processedRecords = u.processedRecords.getD j.processedRecords ∧
      (applyUpd j u now).successfulRecords
        = u.successfulRecords.getD j.successfulRecords ∧
      (applyUpd j u now).totalRecords = u.totalRecords.getD j.totalRecords ∧
      (applyUpd j u now).fileName = u.fileName.getD j.fileName ∧
      (applyUpd j u now).status = u.status.getD j.status ∧
      ((u.status = some "completed" ∨ u.status = some "failed") →
        (applyUpd j u now).completedAt = some now) ∧
      (¬(u.status = some "completed" ∨ u.status = some "failed") →
        (applyUpd j u now).completedAt = u.completedAt.getD j.completedAt)) := by
  constructor
  · intro h
    simp [updateBatchJob, h]
  · intro j h
    refine ⟨by simp [updateBatchJob, h], ?_, ?_, ?_, ?_, ?_, ?_, ?_⟩
    · simp only [applyUpd]
      split <;> rfl
    · simp only [applyUpd]
      split <;> rfl
    · simp only [applyUpd]
      split <;> rfl
    · simp only [applyUpd]
      split <;> rfl
    · simp only [applyUpd]
      split <;> rfl
    · intro hc
      simp [applyUpd, hc]
    · intro hc
      simp [applyUpd, hc]

/-- Witness for C7: a missing id answers none; an update carrying status
completed stamps completedAt with the call's current time. -/
theorem updateBatchJob_spec_witness :
    updateBatchJob [] "missing" {} 0 = (none, []) ∧
    (updateBatchJob [("a", jobA)] "a" { status := some "completed" } 7).1
      = some (applyUpd jobA { status := some "completed" } 7) ∧
    (applyUpd jobA { status := some "completed" } 7).completedAt = some 7 := by
  refine ⟨(updateBatchJob_spec [] "missing" {} 0).1 rfl, ?_, ?_⟩
  · exact ((updateBatchJob_spec [("a", jobA)] "a"
      { status := some "completed" } 7).2 jobA rfl).1
  · exact (((updateBatchJob_spec [("a", jobA)] "a"
      { status := some "completed" } 7).2 jobA rfl).2.2.2.2.2.2).1 (Or.inl rfl)

/-! ## C8: createEmailSearch default-to-null behaviour -/

/-- C8 is false as stated for the exported MemStorage: an insert that omits
fullName (and industry) yields a stored record whose fullName and industry
are still undefined — the object spread copies the absent keys through, and
only title, email, confidence, domain, errorMessage and batchId are
rewritten through the a-or-null idiom; undefined is not the explicit null
absent value. -/
theorem createEmailSearch_defaults_counterexample :
    (createEmailSearch [] minimalInsert "id0" 0).2.fullName = JStr.undef ∧
    (createEmailSearch [] minimalInsert "id0" 0).2.industry = JStr.undef ∧
    JStr.undef ≠ JStr.null := by
  refine ⟨rfl, rfl, fun h => ?_⟩
  cases h

/-- C8 (amended): createEmailSearch assigns the fresh id and creation
timestamp and stores the record by appending it; the fields title, email,
confidence, domain, errorMessage and batchId are never left undefined
(each is rewritten to null when absent or falsy), while fullName, industry,
website, companySize, country, city and emailStatus are copied from the
insert unchanged and stay undefined when the insert omits them. -/
theorem createEmailSearch_defaults (searches : List EmailSearch)
    (ins : InsertEmailSearch) (id : String) (now : Nat) :
    (createEmailSearch searches ins id now).2.id = id ∧
    (createEmailSearch searches ins id now).2.createdAt = now ∧
    (createEmailSearch searches ins id now).2.title ≠ JStr.undef ∧
    (createEmailSearch searches ins id now).2.email ≠ JStr.undef ∧
    (createEmailSearch searches ins id now).2.confidence ≠ JNum.undef ∧
    (createEmailSearch searches ins id now).2.domain ≠ JStr.undef ∧
    (createEmailSearch searches ins id now).2.errorMessage ≠ JStr.undef ∧
    (createEmailSearch searches ins id now).2.batchId ≠ JStr.undef ∧
    (createEmailSearch searches ins id now).2.fullName = ins.fullName ∧
    (createEmailSearch searches ins id now).2.industry = ins.industry ∧
    (createEmailSearch searches ins id now).2.website = ins.website ∧
    (createEmailSearch searches ins id now).2.companySize = ins.companySize ∧
    (createEmailSearch searches ins id now).2.country = ins.country ∧
    (createEmailSearch searches ins id now).2.city = ins.city ∧
    (createEmailSearch searches ins id now).2.emailStatus = ins.emailStatus ∧
    (createEmailSearch searches ins id now).1
      = searches ++ [(createEmailSearch searches ins id now).2] :=
  ⟨rfl, rfl, jsOrNullStr_ne_undef ins.title, jsOrNullStr_ne_undef ins.email,
    jsOrNullNum_ne_undef ins.confidence, jsOrNullStr_ne_undef ins.domain,
    jsOrNullStr_ne_undef ins.errorMessage, jsOrNullStr_ne_undef ins.batchId,
    rfl, rfl, rfl, rfl, rfl, rfl, rfl, rfl⟩

/-! ## C9: synchronous batch rejection leaves no state behind -/

/-- C9: a batch submission whose contacts is not an array, is empty, or
arrives while no active ApiConfig exists is rejected synchronously: the
whole storage state is unchanged (so no BatchJob and no SearchRecord is
left behind), and getBatchJob afterwards answers exactly what it answered
before — absent for every id no other submission created. -/
theorem submitBatch_rejects (st : AppState) (fn : String)
    (cs : Option (List RawContact)) (id : String) (now : Nat)
    (h : cs = none ∨ cs = some [] ∨ getActiveApiConfig st.apiConfigs = none) :
    (submitBatch st fn cs id now).1 = st ∧
    isRejected (submitBatch st fn cs id now).2 = true ∧
    ∀ i, getBatchJob (submitBatch st fn cs id now).1.batchJobs i
      = getBatchJob st.batchJobs i := by
  have hmain : (submitBatch st fn cs id now).1 = st ∧
      isRejected (submitBatch st fn cs id now).2 = true := by
    rcases h with h | h | h
    · subst h
      exact ⟨rfl, rfl⟩
    · subst h
      exact ⟨rfl, rfl⟩
    · cases cs with
      | none => exact ⟨rfl, rfl⟩
      | some l =>
        cases l with
        | nil => exact ⟨rfl, rfl⟩
        | cons c cs2 => simp [submitBatch, h, isRejected]
  exact ⟨hmain.1, hmain.2, fun i => by rw [hmain.1]⟩

/-- Witness for C9: an empty contact list against an empty store. -/
theorem submitBatch_rejects_witness :
    (submitBatch {} "contacts.csv" (some []) "id0" 0).1 = ({} : AppState) ∧
    isRejected (submitBatch {} "contacts.csv" (some []) "id0" 0).2 = true ∧
    ∀ i, getBatchJob (submitBatch {} "contacts.csv" (some []) "id0" 0).1.batchJobs i
      = getBatchJob ({} : AppState).batchJobs i :=
  submitBatch_rejects {} "contacts.csv" (some []) "id0" 0 (Or.inr (Or.inl rfl))

/-! ## C10: a zero confidence score is persisted as null -/

/-- C10: when a lookup outcome carries confidence 0 — the Lookup Client's
default when the service omits both confidence and score — the insert the
routes build from it already coerces the 0 to null (confidence-or-null),
and the record MemStorage stores and returns keeps confidence null, in
both the single and the batch persist path (the paths build the identical
insert up to searchType and batchId, which are arbitrary here). -/
theorem confidence_zero_persisted_null (fn ln co ty : String) (bid : JStr)
    (r : GetProspectResponse) (searches : List EmailSearch) (id : String) (now : Nat)
    (h : r.confidence = JNum.num 0) :
    (insertFromResult fn ln co r ty bid).confidence = JNum.null ∧
    (createEmailSearch searches (insertFromResult fn ln co r ty bid) id now).2.confidence
      = JNum.null := by
  have h1 : (insertFromResult fn ln co r ty bid).confidence = JNum.null := by
    simp [insertFromResult, jsOrNullNum, jsOrNum, jsTruthyNum, h]
  refine ⟨h1, ?_⟩
  show jsOrNullNum (insertFromResult fn ln co r ty bid).confidence = JNum.null
  rw [h1]
  rfl

/-- Witness for C10: a 2xx payload with an email and no confidence or score
yields the default confidence 0, which is persisted as null. -/
theorem confidence_zero_persisted_null_witness :
    (createEmailSearch [] (insertFromResult "Jane" "Roe" "Acme"
        (findEmailWithGetProspect "Jane" "Roe" "Acme" "key"
          (.resp 200 "OK" emailOnlyPayload)) "batch" (JStr.str "b1"))
      "id0" 5).2.confidence = JNum.null :=
  (confidence_zero_persisted_null "Jane" "Roe" "Acme" "batch" (JStr.str "b1")
    (findEmailWithGetProspect "Jane" "Roe" "Acme" "key"
      (.resp 200 "OK" emailOnlyPayload)) [] "id0" 5 rfl).2

end Leads
